import Mathlib

/-!
Verification development for the LexiYaar repository.

This file gives a shallow embedding, in Lean 4, of the clause-risk
classification and reconciliation engine (src/lib/classifier.ts), the remote
analysis client (the Gemini analyzer module), and the language-adaptive
extraction driver (the ScanPage processDocument routine together with the OCR
service), and proves or refutes the frozen specification claims about them.

Conventions of the embedding:
- JavaScript numbers that carry scores and confidences are modelled as
  rationals; Math.round is modelled by jsRound below.
- JavaScript regular-expression evaluation is external to the embedded code;
  a regex test is modelled by an explicit oracle parameter of type
  String -> String -> Bool that receives the regex source string and the text.
  The rule table carries the literal regex source strings of the source file.
- String.substring counts UTF-16 code units in JavaScript; the embedding
  counts characters. The concrete texts used by the claims are ASCII, where
  the two notions agree.
- generateId in the source draws on Math.random and Date.now; it is modelled
  by an explicit id-supply parameter of type Nat -> String that is consumed
  in call order.
-/

namespace LexiYaar

/-- Risk levels from src/types/index.ts. -/
inductive RiskLevel where
  | low
  | medium
  | high
deriving DecidableEq

/-- Clause types from src/types/index.ts. -/
inductive ClauseType where
  | security_deposit
  | rent_hike
  | lock_in_penalty
  | other
deriving DecidableEq

/-- Approximate layout position carried by a ClauseResult. -/
structure Position where
  x : Int
  y : Int
  width : Int
  height : Int
deriving DecidableEq

/-- ClauseResult from src/types/index.ts. Confidence is modelled as a
rational; optional fields are Options. -/
structure ClauseResult where
  id : String
  text : String
  type : ClauseType
  confidence : Rat
  position : Position
  riskLevel : RiskLevel
  reason : String
  legalBasis : Option String
  suggestion : Option String
deriving DecidableEq

/-- JavaScript Math.round on a rational: floor of x + 1/2. -/
def jsRound (q : Rat) : Int := Int.floor (q + 1 / 2)

/-- Tests whether the first list is a prefix of the second, by character
comparison; helper for the model of JavaScript String.includes. -/
def listStartsWith : List Char → List Char → Bool
  | [], _ => true
  | _ :: _, [] => false
  | a :: as, b :: bs => a == b && listStartsWith as bs

/-- Model of JavaScript hay.includes(needle) on character lists: the first
argument is the needle, the second the haystack. -/
def listHasInfixOf (needle : List Char) : List Char → Bool
  | [] => needle.isEmpty
  | c :: cs => listStartsWith needle (c :: cs) || listHasInfixOf needle cs

/-- Model of JavaScript hay.includes(needle). -/
def strIncludes (hay needle : String) : Bool :=
  listHasInfixOf needle.data hay.data

/-- Model of JavaScript s.substring(0, n) (character-counted). -/
def jsSubstring0 (s : String) (n : Nat) : String := String.mk (s.data.take n)

/-- One step of collapsing runs of whitespace to a single space, as done by
replace(/\s+/g, a single space); the Bool records whether the previous
character was whitespace. -/
def collapseWsAux : List Char → Bool → List Char
  | [], _ => []
  | c :: cs, prevWs =>
    if c.isWhitespace then
      if prevWs then collapseWsAux cs true else ' ' :: collapseWsAux cs true
    else c :: collapseWsAux cs false

/-- Model of JavaScript String.trim: drop whitespace from both ends. -/
def jsTrim (cs : List Char) : List Char :=
  ((cs.dropWhile Char.isWhitespace).reverse.dropWhile Char.isWhitespace).reverse

/-- The normalize helper of areSimilarClauses in src/lib/classifier.ts:
text.toLowerCase().replace(/\s+/g, single space).trim(). -/
def normalizeClause (text : String) : String :=
  String.mk (jsTrim (collapseWsAux text.toLower.data false))

/-- Replacement of each whitespace run in a keyword by the three characters
backslash s plus, modelling keyword.replace(/\s+/g, double-backslash s +)
in findMatchingRules. -/
def kwReplaceAux : List Char → Bool → List Char
  | [], _ => []
  | c :: cs, inRun =>
    if c.isWhitespace then
      if inRun then kwReplaceAux cs true
      else '\\' :: 's' :: '+' :: kwReplaceAux cs true
    else c :: kwReplaceAux cs false

/-- The regex source string built from a keyword in findMatchingRules. -/
def keywordToRegexSource (kw : String) : String :=
  String.mk (kwReplaceAux kw.data false)

/-- Stable insertion into a list kept in descending key order: the new
element goes before the first element whose key is at most its own. This is
the behavior of the (stable) JavaScript Array.sort with comparator
(a, b) => key(b) - key(a). -/
def insertDescBy {α : Type} (key : α → Rat) (x : α) : List α → List α
  | [] => [x]
  | y :: ys => if key y ≤ key x then x :: y :: ys else y :: insertDescBy key x ys

/-- Stable sort in descending key order. -/
def sortDescBy {α : Type} (key : α → Rat) (l : List α) : List α :=
  l.foldr (insertDescBy key) []

/-- ClassifierRule from src/lib/classifier.ts; regex patterns are carried as
their literal source strings. -/
structure ClassifierRule where
  type : ClauseType
  patterns : List String
  keywords : List String
  riskLevel : RiskLevel
  weightedScore : Rat
  reason : String
deriving DecidableEq

/-- Security deposit, high risk rule of CLASSIFICATION_RULES. -/
def securityDepositHighRule : ClassifierRule :=
  { type := ClauseType.security_deposit
    patterns :=
      [ "security\\s+deposit.*(?:forfeited?|forfeit|retained?|deducted?)"
      , "deposit.*(?:will\\s+not\\s+be|shall\\s+not\\s+be).*returned?"
      , "(?:advance|deposit).*(?:adjusted?|adjustment).*rent"
      , "deposit.*(?:damages?|wear\\s+and\\s+tear).*(?:as\\s+per|at\\s+the\\s+discretion)" ]
    keywords := ["forfeit deposit", "non-refundable deposit", "deposit adjustment"]
    riskLevel := RiskLevel.high
    weightedScore := 9 / 10
    reason := "Unfair security deposit forfeiture or deduction clause" }

/-- Security deposit, medium risk rule of CLASSIFICATION_RULES. -/
def securityDepositMediumRule : ClassifierRule :=
  { type := ClauseType.security_deposit
    patterns :=
      [ "deposit.*(?:subject\\s+to|conditions?|terms?)"
      , "security.*(?:damages?|repairs?|maintenance)"
      , "wear\\s+and\\s+tear.*(?:normal|reasonable).*(?:not|exclude)" ]
    keywords := ["deposit conditions", "wear and tear", "damage assessment"]
    riskLevel := RiskLevel.medium
    weightedScore := 6 / 10
    reason := "Vague or ambiguous security deposit terms" }

/-- Rent hike, high risk rule of CLASSIFICATION_RULES. -/
def rentHikeHighRule : ClassifierRule :=
  { type := ClauseType.rent_hike
    patterns :=
      [ "rent.*(?:increase|enhanced?|raised?).*(?:at\\s+the\\s+discretion|sole\\s+discretion|without\\s+notice)"
      , "owner.*(?:right|entitled?).*(?:increase|enhance|raise).*rent.*(?:any\\s+time|without\\s+limit)"
      , "rent.*(?:revision|review).*(?:monthly|quarterly|any\\s+time)"
      , "annual.*increase.*(?:minimum|not\\s+less\\s+than).*\\d+.*percent" ]
    keywords := ["arbitrary rent increase", "discretionary rent hike", "unlimited increase"]
    riskLevel := RiskLevel.high
    weightedScore := 85 / 100
    reason := "Arbitrary or excessive rent increase provision" }

/-- Rent hike, medium risk rule of CLASSIFICATION_RULES. -/
def rentHikeMediumRule : ClassifierRule :=
  { type := ClauseType.rent_hike
    patterns :=
      [ "rent.*(?:increase|enhanced?).*annual"
      , "(?:market\\s+rate|prevailing\\s+rate).*rent.*adjustment"
      , "rent.*(?:subject\\s+to|liable\\s+to).*(?:change|modification)" ]
    keywords := ["annual rent increase", "market rate adjustment"]
    riskLevel := RiskLevel.medium
    weightedScore := 5 / 10
    reason := "Potential for regular rent increases" }

/-- Lock-in penalty, high risk rule of CLASSIFICATION_RULES. -/
def lockInHighRule : ClassifierRule :=
  { type := ClauseType.lock_in_penalty
    patterns :=
      [ "(?:lock.?in|lock.?up).*(?:period|clause).*(?:months?|years?).*(?:penalty|charges?|forfeit)"
      , "(?:vacate|leave|exit).*(?:before|prior\\s+to).*(?:penalty|charges?|forfeit)"
      , "(?:termination|breaking).*(?:agreement|contract).*(?:penalty|charges?).*(?:months?\\s+rent|\\d+.*deposit)"
      , "(?:notice\\s+period|advance\\s+notice).*(?:months?|days?).*(?:failing|without).*penalty" ]
    keywords := ["lock-in penalty", "early termination charges", "forfeit deposit"]
    riskLevel := RiskLevel.high
    weightedScore := 8 / 10
    reason := "Harsh lock-in period with heavy penalties" }

/-- Lock-in penalty, medium risk rule of CLASSIFICATION_RULES. -/
def lockInMediumRule : ClassifierRule :=
  { type := ClauseType.lock_in_penalty
    patterns :=
      [ "(?:minimum|initial).*(?:tenure|period).*(?:months?|years?)"
      , "(?:notice\\s+period|advance\\s+notice).*(?:months?|days?)"
      , "(?:early|premature).*(?:vacation|exit|termination)" ]
    keywords := ["minimum tenure", "notice period", "early vacation"]
    riskLevel := RiskLevel.medium
    weightedScore := 4 / 10
    reason := "Standard lock-in terms that may limit flexibility" }

/-- The static rule table CLASSIFICATION_RULES of src/lib/classifier.ts. -/
def CLASSIFICATION_RULES : List ClassifierRule :=
  [ securityDepositHighRule, securityDepositMediumRule
  , rentHikeHighRule, rentHikeMediumRule
  , lockInHighRule, lockInMediumRule ]

/-- RegexTest is the type of the external regex oracle: it receives a regex
source string and a text and decides whether the case-insensitive regex
matches the text (the JavaScript pattern.test call). -/
def RegexTest : Type := String → String → Bool

/-- findMatchingRules of src/lib/classifier.ts: for each rule, every matching
pattern adds weightedScore * 0.7 and every matching keyword (compiled through
keywordToRegexSource) adds weightedScore * 0.3 to a running score while
counting matches; a candidate (rule, min score 1) is kept when at least one
pattern or keyword matched and the score strictly exceeds 0.2; the candidate
list is finally sorted by descending score. -/
def findMatchingRules (rtest : RegexTest) (text : String) :
    List (ClassifierRule × Rat) :=
  sortDescBy (fun m => m.2)
    (CLASSIFICATION_RULES.foldr (fun rule acc =>
      let afterPats := rule.patterns.foldl
        (fun sc p => if rtest p text then (sc.1 + rule.weightedScore * (7 / 10), sc.2 + 1) else sc)
        ((0 : Rat), (0 : Nat))
      let afterKws := rule.keywords.foldl
        (fun sc kw => if rtest (keywordToRegexSource kw) text then
            (sc.1 + rule.weightedScore * (3 / 10), sc.2 + 1) else sc)
        afterPats
      if 0 < afterKws.2 ∧ 1 / 5 < afterKws.1 then
        (rule, min afterKws.1 1) :: acc
      else acc) [])

/-- Deduplication key of deduplicateResults: the source builds the string
key type-dash-prefix from the clause type and the first 50 characters of the
text; since clause type names contain no dash, the pair is an equivalent key. -/
def dedupKey (r : ClauseResult) : ClauseType × String :=
  (r.type, jsSubstring0 r.text 50)

/-- The walk of deduplicateResults: keep a result only when its key is not in
the seen set, accumulating seen keys. -/
def dedupLoop : List ClauseResult → List (ClauseType × String) → List ClauseResult
  | [], _ => []
  | r :: rs, seen =>
    if dedupKey r ∈ seen then dedupLoop rs seen
    else r :: dedupLoop rs (dedupKey r :: seen)

/-- deduplicateResults of src/lib/classifier.ts: sort by descending
confidence, then keep the first result of each (type, 50-character-prefix)
key. -/
def deduplicateResults (results : List ClauseResult) : List ClauseResult :=
  dedupLoop (sortDescBy (fun r => r.confidence) results) []

/-- Candidate matches of classifyText before id assignment and
deduplication: for the paragraph with index i (starting at the given
counter), every rule returned by findMatchingRules yields the tuple
(i, paragraph, rule, score), in paragraph order. -/
def candidateMatchesFrom (rtest : RegexTest) :
    Nat → List String → List (Nat × String × ClassifierRule × Rat)
  | _, [] => []
  | i, p :: ps =>
    ((findMatchingRules rtest p).map fun rs => (i, p, rs.1, rs.2))
      ++ candidateMatchesFrom rtest (i + 1) ps

/-- Candidate matches of classifyText across all paragraphs. -/
def candidateMatches (rtest : RegexTest) (paragraphs : List String) :
    List (Nat × String × ClassifierRule × Rat) :=
  candidateMatchesFrom rtest 0 paragraphs

/-- The ClauseResult built by classifyText for one candidate match: the text
is the whole paragraph, confidence is the rule score, and the position is
approximated from the paragraph index. -/
def mkClauseResult (id : String) (c : Nat × String × ClassifierRule × Rat) :
    ClauseResult :=
  { id := id
    text := c.2.1
    type := c.2.2.1.type
    confidence := c.2.2.2
    position := { x := 0, y := (c.1 : Int) * 50, width := 100, height := 40 }
    riskLevel := c.2.2.1.riskLevel
    reason := c.2.2.1.reason
    legalBasis := none
    suggestion := none }

/-- Sequential id assignment: the k-th candidate match produced overall
receives the k-th generated id, modelling the call order of generateId. -/
def numberResults (idGen : Nat → String) :
    Nat → List (Nat × String × ClassifierRule × Rat) → List ClauseResult
  | _, [] => []
  | k, c :: cs => mkClauseResult (idGen k) c :: numberResults idGen (k + 1) cs

/-- classifyText of src/lib/classifier.ts: build a ClauseResult for every
rule match of every paragraph, then deduplicate. -/
def classifyText (rtest : RegexTest) (idGen : Nat → String)
    (paragraphs : List String) : List ClauseResult :=
  deduplicateResults (numberResults idGen 0 (candidateMatches rtest paragraphs))

/-- areSimilarClauses of src/lib/classifier.ts: normalize both texts
(lowercase, collapse whitespace, trim) and test whether either normalized
text contains the first 50 characters of the other. -/
def areSimilarClauses (text1 text2 : String) : Bool :=
  let norm1 := normalizeClause text1
  let norm2 := normalizeClause text2
  strIncludes norm1 (jsSubstring0 norm2 50) || strIncludes norm2 (jsSubstring0 norm1 50)

/-- The reason prefixing applied by mergeClassificationResults to a local
clause that is appended to the merged list. -/
def prefixLocalReason (lc : ClauseResult) : ClauseResult :=
  { lc with reason := "[Local Detection] " ++ lc.reason }

/-- mergeClassificationResults of src/lib/classifier.ts: start from a copy of
the AI clauses; walk the local clauses in order and push each one whose text
is similar to no AI clause, with its reason prefixed by the local-detection
marker. -/
def mergeClassificationResults (aiClauses localClauses : List ClauseResult) :
    List ClauseResult :=
  localClauses.foldl (fun merged localClause =>
    if (aiClauses.find? fun aiClause =>
          areSimilarClauses aiClause.text localClause.text).isSome then
      merged
    else merged ++ [prefixLocalReason localClause]) aiClauses

/-- Risk weight used by calculateOverallRiskScore: high 30, medium 20,
low 10. -/
def riskWeight : RiskLevel → Rat
  | RiskLevel.high => 30
  | RiskLevel.medium => 20
  | RiskLevel.low => 10

/-- The accumulated total of riskWeight times confidence over a clause list,
as computed by the forEach loop of calculateOverallRiskScore. -/
def totalRiskScore (clauses : List ClauseResult) : Rat :=
  clauses.foldl (fun t c => t + riskWeight c.riskLevel * c.confidence) 0

/-- calculateOverallRiskScore of src/lib/classifier.ts: 0 for the empty
list, otherwise the rounded mean of riskWeight times confidence, capped
at 100. -/
def calculateOverallRiskScore (clauses : List ClauseResult) : Int :=
  if clauses.length = 0 then 0
  else min (jsRound (totalRiskScore clauses / (clauses.length : Rat))) 100

/-- Government compliance block of the analysis result. -/
structure GovernmentCompliance where
  compliant : Bool
  violations : List String
  recommendations : List String
deriving DecidableEq

/-- LegalAnalysisResult, the shape returned by the Gemini analyzer and by
classifyWithAI. -/
structure LegalAnalysisResult where
  clauses : List ClauseResult
  overallRiskScore : Int
  governmentCompliance : GovernmentCompliance
  summary : String
deriving DecidableEq

/-- Paragraph splitting performed by classifyWithAI:
text.split(newline).filter(p => p.trim().length > 0). -/
def splitParagraphs (text : String) : List String :=
  (text.split (fun c => c = '\n')).filter (fun p => 0 < p.trim.length)

/-- classifyWithAI of src/lib/classifier.ts. The Option argument models the
awaited outcome of geminiAnalyzer.analyzeLegalDocument: some is a successful
remote report, none is any thrown error (transport, service or parse
failure surfaced by the analyzer), which the catch branch absorbs. With a
remote report, the clauses are the merge of AI and local results while
score, compliance and summary come verbatim from the remote report; without
one, the local results alone are returned with the locally computed risk
score, a compliant-by-default block carrying one recommendation, and a
synthesized summary. -/
def classifyWithAI (aiAnalysis : Option LegalAnalysisResult)
    (rtest : RegexTest) (idGen : Nat → String) (text : String) :
    LegalAnalysisResult :=
  let paragraphs := splitParagraphs text
  let localResults := classifyText rtest idGen paragraphs
  match aiAnalysis with
  | some ai =>
      { clauses := mergeClassificationResults ai.clauses localResults
        overallRiskScore := ai.overallRiskScore
        governmentCompliance := ai.governmentCompliance
        summary := ai.summary }
  | none =>
      { clauses := localResults
        overallRiskScore := calculateOverallRiskScore localResults
        governmentCompliance :=
          { compliant := true
            violations := []
            recommendations := ["AI analysis unavailable - manual review recommended"] }
        summary := "Local analysis found " ++ toString localResults.length
          ++ " potential issues. AI analysis unavailable." }

/-- Government type accepted by the Gemini analyzer. -/
inductive GovernmentType where
  | india
  | us
  | general
deriving DecidableEq

/-- One clause object as delivered inside the JSON reply of the analysis
service; every field may be absent. -/
structure GeminiClauseJson where
  typeField : Option String
  text : Option String
  riskLevel : Option String
  reason : Option String
  legalBasis : Option String
  suggestion : Option String
deriving DecidableEq

/-- The JSON analysis object as delivered by the analysis service, after
JSON.parse; every field may be absent. -/
structure GeminiAnalysisJson where
  problematicClauses : Option (List GeminiClauseJson)
  overallRiskScore : Option Int
  complianceCompliant : Option Bool
  complianceViolations : Option (List String)
  complianceRecommendations : Option (List String)
  summary : Option String
deriving DecidableEq

/-- Opening brace character, written via its code point. -/
def lbrace : Char := Char.ofNat 123

/-- Closing brace character, written via its code point. -/
def rbrace : Char := Char.ofNat 125

/-- Model of responseText.match of the greedy brace regex used by
parseAnalysisResponse: the block from the first opening brace to the last
closing brace, when the latter comes after the former; none models a failed
match (the thrown no-JSON-found error). -/
def extractJsonBlock (s : String) : Option String :=
  let cs := s.data
  match cs.findIdx? (fun c => c == lbrace) with
  | none => none
  | some i =>
    match cs.reverse.findIdx? (fun c => c == rbrace) with
    | none => none
    | some rj =>
      let j := cs.length - 1 - rj
      if i < j then some (String.mk ((cs.drop i).take (j - i + 1))) else none

/-- JsonParse is the type of the external oracle standing for JSON.parse
plus the dynamic field accesses of the try block: some is a successfully
decoded analysis object, none is any exception raised in the try block. -/
def JsonParse : Type := String → Option GeminiAnalysisJson

/-- Truthiness of an optional string in JavaScript: present and non-empty. -/
def truthyStr (o : Option String) : Bool :=
  match o with
  | some s => !s.isEmpty
  | none => false

/-- mapToClauseType of the Gemini analyzer: lowercase lookup in the fixed
type table, defaulting to the generic category. -/
def mapToClauseType (t : Option String) : ClauseType :=
  let typeMap : List (String × ClauseType) :=
    [ ("security_deposit", ClauseType.security_deposit)
    , ("rent_hike", ClauseType.rent_hike)
    , ("lock_in_penalty", ClauseType.lock_in_penalty)
    , ("termination", ClauseType.other)
    , ("maintenance", ClauseType.other)
    , ("utilities", ClauseType.other)
    , ("subletting", ClauseType.other)
    , ("other", ClauseType.other) ]
  match t with
  | none => ClauseType.other
  | some s =>
    (((typeMap.find? fun p => p.1 == s.toLower).map Prod.snd).getD ClauseType.other)

/-- Risk level read from the JSON clause. The source casts the string
unchecked and falls back to medium when the field is absent or empty; the
model maps the three recognized names and sends any other string to medium
(in the source an unrecognized non-empty string would flow through the
unchecked cast; no claim depends on that case). -/
def riskLevelFromJson (o : Option String) : RiskLevel :=
  match o with
  | some "high" => RiskLevel.high
  | some "medium" => RiskLevel.medium
  | some "low" => RiskLevel.low
  | _ => RiskLevel.medium

/-- calculateConfidence of the Gemini analyzer: base 0.5, +0.2 for a truthy
legal basis, +0.1 for a truthy suggestion, +0.15 for high risk or +0.05 for
medium risk, capped at 1. -/
def calculateConfidence (clause : GeminiClauseJson) : Rat :=
  let c1 : Rat := 1 / 2
  let c2 := if truthyStr clause.legalBasis then c1 + 2 / 10 else c1
  let c3 := if truthyStr clause.suggestion then c2 + 1 / 10 else c2
  let c4 :=
    if clause.riskLevel = some "high" then c3 + 15 / 100
    else if clause.riskLevel = some "medium" then c3 + 5 / 100
    else c3
  min c4 1

/-- Model of JavaScript hay.indexOf(needle) on strings: the first character
index at which the needle occurs, or -1. -/
def jsIndexOf (hay needle : String) : Int :=
  let rec go : List Char → Nat → Option Nat :=
    fun cs i =>
      match cs with
      | [] => if needle.data.isEmpty then some i else none
      | _ :: t =>
        if listStartsWith needle.data cs then some i else go t (i + 1)
  match go hay.data 0 with
  | some i => (i : Int)
  | none => -1

/-- findTextPosition of the Gemini analyzer: locate the lowercased clause
text in the lowercased full text, count the lines before it and place the
clause at twenty pixels per line. A missing occurrence gives index -1, whose
substring is empty, hence line 1. -/
def findTextPosition (clauseText : Option String) (fullText : String) : Position :=
  let needle := (clauseText.map String.toLower).getD ""
  let index := jsIndexOf fullText.toLower needle
  let before :=
    if index ≤ 0 then "" else String.mk (fullText.data.take index.toNat)
  let lineNumber := (before.split (fun c => c = '\n')).length
  { x := 0, y := (lineNumber : Int) * 20, width := 100, height := 40 }

/-- calculateOverallRisk of the Gemini analyzer (the fallback when the JSON
carries no usable score): multipliers 3, 2, 1 by risk level, each times ten
times confidence, averaged, times ten, rounded and capped at 100. -/
def calculateOverallRisk (clauses : List ClauseResult) : Int :=
  if clauses.length = 0 then 0
  else
    let totalRisk := clauses.foldl
      (fun t c =>
        let m : Rat :=
          match c.riskLevel with
          | RiskLevel.high => 3
          | RiskLevel.medium => 2
          | RiskLevel.low => 1
        t + c.confidence * m * 10) 0
    min (jsRound (totalRisk / (clauses.length : Rat) * 10)) 100

/-- generateSummary of the Gemini analyzer: counts by risk level, an
optional jurisdiction note, and a caution sentence when a high-risk clause
is present. -/
def generateSummary (clauses : List ClauseResult) (governmentType : GovernmentType) :
    String :=
  let highRiskCount := (clauses.filter fun c => c.riskLevel = RiskLevel.high).length
  let mediumRiskCount := (clauses.filter fun c => c.riskLevel = RiskLevel.medium).length
  let s1 := "Document analysis complete. Found " ++ toString clauses.length
    ++ " problematic clause(s): " ++ toString highRiskCount ++ " high-risk, "
    ++ toString mediumRiskCount ++ " medium-risk. "
  let s2 :=
    match governmentType with
    | GovernmentType.india => s1 ++ "Analysis performed according to INDIA regulations. "
    | GovernmentType.us => s1 ++ "Analysis performed according to US regulations. "
    | GovernmentType.general => s1
  if 0 < highRiskCount then
    s2 ++ "CAUTION: This document contains high-risk clauses that may be unfair or illegal. Legal consultation recommended."
  else s2

/-- The fallback report returned by the catch branch of
parseAnalysisResponse: empty clause list, zero score, compliant block, fixed
summary. -/
def defaultAnalysisFallback : LegalAnalysisResult :=
  { clauses := []
    overallRiskScore := 0
    governmentCompliance := { compliant := true, violations := [], recommendations := [] }
    summary := "Unable to perform detailed analysis. Please review the document manually." }

/-- The clause list built in the success path of parseAnalysisResponse. -/
def buildGeminiClauses (idGen : Nat → String) (originalText : String) :
    Nat → List GeminiClauseJson → List ClauseResult
  | _, [] => []
  | k, clause :: rest =>
    { id := idGen k
      text := clause.text.getD ""
      type := mapToClauseType clause.typeField
      confidence := calculateConfidence clause
      position := findTextPosition clause.text originalText
      riskLevel := riskLevelFromJson clause.riskLevel
      reason := clause.reason.getD ""
      legalBasis := clause.legalBasis
      suggestion := clause.suggestion } :: buildGeminiClauses idGen originalText (k + 1) rest

/-- parseAnalysisResponse of the Gemini analyzer. The whole try block is
modelled by the composition of extractJsonBlock (the brace regex match,
throwing when absent) and the JsonParse oracle (JSON.parse and the dynamic
field accesses, none for any exception); the catch branch turns every such
failure into defaultAnalysisFallback instead of propagating it. On success
the clause objects are converted, a zero or absent risk score falls back to
calculateOverallRisk (the JavaScript or-operator treats 0 as falsy), absent
compliance fields fall back to a compliant default, and an absent or empty
summary falls back to generateSummary. -/
def parseAnalysisResponse (jsonParse : JsonParse) (idGen : Nat → String)
    (responseText originalText : String) (governmentType : GovernmentType) :
    LegalAnalysisResult :=
  match (extractJsonBlock responseText).bind jsonParse with
  | none => defaultAnalysisFallback
  | some analysis =>
    let clauses := buildGeminiClauses idGen originalText 0
      (analysis.problematicClauses.getD [])
    { clauses := clauses
      overallRiskScore :=
        match analysis.overallRiskScore with
        | some n => if n = 0 then calculateOverallRisk clauses else n
        | none => calculateOverallRisk clauses
      governmentCompliance :=
        { compliant := analysis.complianceCompliant.getD true
          violations := analysis.complianceViolations.getD []
          recommendations := analysis.complianceRecommendations.getD [] }
      summary :=
        match analysis.summary with
        | some s => if s.isEmpty then generateSummary clauses governmentType else s
        | none => generateSummary clauses governmentType }

/-- Outcome of the transport part of analyzeLegalDocument: either the await
of generateContent or response.text threw, or a reply string was received. -/
inductive GeminiTransport where
  | failure : GeminiTransport
  | success : String → GeminiTransport
deriving DecidableEq

/-- analyzeLegalDocument of the Gemini analyzer: a transport or service
error is rethrown as the failed-to-analyze error (the AnalysisUnavailable
failure); a received reply is always handed to parseAnalysisResponse, which
never throws. -/
def analyzeLegalDocument (transport : GeminiTransport) (jsonParse : JsonParse)
    (idGen : Nat → String) (text : String) (governmentType : GovernmentType) :
    Except String LegalAnalysisResult :=
  match transport with
  | GeminiTransport.failure => Except.error "Failed to analyze legal document"
  | GeminiTransport.success responseText =>
    Except.ok (parseAnalysisResponse jsonParse idGen responseText text governmentType)

/-- The fixed franc-to-tesseract lookup table of processDocument in the scan
page component. -/
def francToTess : List (String × String) :=
  [ ("eng", "eng"), ("hin", "hin"), ("ben", "ben"), ("guj", "guj")
  , ("mar", "mar"), ("kan", "kan"), ("mal", "mal"), ("tam", "tam")
  , ("tel", "tel"), ("pan", "pan"), ("ori", "ori"), ("asm", "asm")
  , ("bod", "bod"), ("doi", "doi"), ("gom", "gom"), ("kas", "kas")
  , ("kok", "kok"), ("mai", "mai"), ("mni", "mni"), ("nep", "nep")
  , ("san", "san"), ("snd", "snd"), ("sat", "sat"), ("urd", "urd")
  , ("spa", "spa"), ("fra", "fra"), ("deu", "deu"), ("cmn", "chi_sim") ]

/-- The lookup francToTess with its or-default: unknown detector codes fall
back to the baseline code eng. -/
def mapFrancToTesseract (langCode : String) : String :=
  ((francToTess.find? fun p => p.1 == langCode).map Prod.snd).getD "eng"

/-- The franc call of processDocument with its minLength option: the
detector returns the undetermined code und when the input is shorter than
minLength characters (the documented franc behavior), and otherwise the
statistically identified code, modelled by the detect oracle. -/
def francWithMinLength (detect : String → String) (minLength : Nat)
    (text : String) : String :=
  if text.length < minLength then "und" else detect text

/-- One extraction call issued by processDocument, recording the language
argument the call passes to the OCR service (none when the call passes only
the file and the progress callback, as every call in processDocument does)
and the detected-language note included in the progress status text. -/
structure ExtractionPass where
  langArg : Option String
  statusDetectedNote : Option String
deriving DecidableEq

/-- The auto-language branch of processDocument for one image, given the
detector oracle and the text of the first extraction pass. A first pass is
always run; franc with minLength 10 is applied to its full text and mapped
through francToTess with fallback eng; a second pass is run exactly when the
mapped code differs from eng, and then the second result replaces the first.
Faithful to the source, neither call passes a language argument to
extractParagraphs (langArg is none for both passes): the detected code is
used only inside the progress status text of the second pass. The returned
pair is the mapped detected code and the list of extraction calls in order;
the result kept is that of the last listed pass. -/
def autoModeExtraction (detect : String → String) (firstPassText : String) :
    String × List ExtractionPass :=
  let langCode := francWithMinLength detect 10 firstPassText
  let detectedLang := mapFrancToTesseract langCode
  if detectedLang ≠ "eng" then
    (detectedLang,
      [ { langArg := none, statusDetectedNote := none }
      , { langArg := none, statusDetectedNote := some detectedLang } ])
  else
    (detectedLang, [{ langArg := none, statusDetectedNote := none }])

/-- The overall progress formula of processDocument for image i of n at
per-pass progress p (both passes use the same formula over the same range):
(i / n) * 100 + p / n. -/
def overallProgressQ (i n : Nat) (p : Rat) : Rat :=
  (i : Rat) / (n : Rat) * 100 + p / (n : Rat)

/-- The percentage displayed by processDocument: Math.round of the overall
progress. -/
def reportedProgress (i n : Nat) (p : Rat) : Int :=
  jsRound (overallProgressQ i n p)

/-- The sequence of percentages reported for image i of n across the two
auto-mode extraction passes, given the raw per-pass progress sequences
emitted by the OCR service (each ranging over 0 to 100): both passes are
mapped through the same reportedProgress formula and concatenated. -/
def autoModeReported (i n : Nat) (pass1 pass2 : List Rat) : List Int :=
  pass1.map (reportedProgress i n) ++ pass2.map (reportedProgress i n)

/-- A clause result with its id erased; two results that agree after erasure
differ at most in the opaque id drawn from the random generator. -/
def eraseId (r : ClauseResult) : ClauseResult := { r with id := "" }

/-- Membership in an insertion is membership in the inserted element or the
list. -/
theorem mem_insertDescBy {α : Type} (key : α → Rat) (x a : α) :
    ∀ l : List α, a ∈ insertDescBy key x l ↔ a = x ∨ a ∈ l := by
  intro l
  induction l with
  | nil => simp [insertDescBy]
  | cons y ys ih =>
    by_cases h : key y ≤ key x
    · simp [insertDescBy, h]
    · simp only [insertDescBy, if_neg h, List.mem_cons, ih]
      tauto

/-- Membership is preserved by the descending sort. -/
theorem mem_sortDescBy {α : Type} (key : α → Rat) (a : α) :
    ∀ l : List α, a ∈ sortDescBy key l ↔ a ∈ l := by
  intro l
  induction l with
  | nil => simp [sortDescBy]
  | cons y ys ih =>
    simp only [sortDescBy, List.foldr_cons, List.mem_cons]
    rw [mem_insertDescBy]
    simp only [sortDescBy] at ih
    rw [ih]

/-- Insertion preserves the descending pairwise ordering. -/
theorem pairwise_insertDescBy {α : Type} (key : α → Rat) (x : α) :
    ∀ l : List α, l.Pairwise (fun u v => key v ≤ key u) →
      (insertDescBy key x l).Pairwise (fun u v => key v ≤ key u) := by
  intro l
  induction l with
  | nil => simp [insertDescBy]
  | cons y ys ih =>
    intro hp
    rcases List.pairwise_cons.mp hp with ⟨hy, hys⟩
    by_cases h : key y ≤ key x
    · rw [insertDescBy, if_pos h]
      refine List.pairwise_cons.mpr ⟨?_, hp⟩
      intro z hz
      rcases List.mem_cons.mp hz with rfl | hz
      · exact h
      · exact le_trans (hy z hz) h
    · rw [insertDescBy, if_neg h]
      refine List.pairwise_cons.mpr ⟨?_, ih hys⟩
      intro z hz
      rcases (mem_insertDescBy key x z ys).mp hz with rfl | hz
      · exact le_of_not_le h
      · exact hy z hz

/-- The descending sort produces a list pairwise ordered by descending
key. -/
theorem pairwise_sortDescBy {α : Type} (key : α → Rat) :
    ∀ l : List α, (sortDescBy key l).Pairwise (fun u v => key v ≤ key u) := by
  intro l
  induction l with
  | nil => simp [sortDescBy]
  | cons y ys ih => exact pairwise_insertDescBy key y _ ih

/-- Every element of the deduplication walk comes from the input list. -/
theorem mem_of_mem_dedupLoop :
    ∀ (l : List ClauseResult) (seen : List (ClauseType × String))
      (a : ClauseResult), a ∈ dedupLoop l seen → a ∈ l := by
  intro l
  induction l with
  | nil => intro seen a h; simp [dedupLoop] at h
  | cons r rs ih =>
    intro seen a h
    by_cases hk : dedupKey r ∈ seen
    · rw [dedupLoop, if_pos hk] at h
      exact List.mem_cons_of_mem r (ih seen a h)
    · rw [dedupLoop, if_neg hk] at h
      rcases List.mem_cons.mp h with rfl | h
      · exact List.mem_cons_self a rs
      · exact List.mem_cons_of_mem r (ih _ a h)

/-- No element kept by the deduplication walk has a key in the seen set. -/
theorem dedupLoop_key_not_seen :
    ∀ (l : List ClauseResult) (seen : List (ClauseType × String))
      (a : ClauseResult), a ∈ dedupLoop l seen → dedupKey a ∉ seen := by
  intro l
  induction l with
  | nil => intro seen a h; simp [dedupLoop] at h
  | cons r rs ih =>
    intro seen a h
    by_cases hk : dedupKey r ∈ seen
    · rw [dedupLoop, if_pos hk] at h
      exact ih seen a h
    · rw [dedupLoop, if_neg hk] at h
      rcases List.mem_cons.mp h with rfl | h
      · exact hk
      · intro hmem
        exact ih _ a h (List.mem_cons_of_mem _ hmem)

/-- The deduplication walk keeps at most one element per key. -/
theorem dedupLoop_pairwise_keys :
    ∀ (l : List ClauseResult) (seen : List (ClauseType × String)),
      (dedupLoop l seen).Pairwise (fun a b => dedupKey a ≠ dedupKey b) := by
  intro l
  induction l with
  | nil => intro seen; simp [dedupLoop]
  | cons r rs ih =>
    intro seen
    by_cases hk : dedupKey r ∈ seen
    · rw [dedupLoop, if_pos hk]; exact ih seen
    · rw [dedupLoop, if_neg hk]
      refine List.pairwise_cons.mpr ⟨?_, ih _⟩
      intro b hb hkey
      exact dedupLoop_key_not_seen rs _ b hb
        (hkey ▸ List.mem_cons_self (dedupKey r) seen)

/-- On a list sorted by descending confidence, the deduplication walk keeps,
for every input element whose key is not already seen, a representative with
the same key and at least its confidence. -/
theorem dedupLoop_representative :
    ∀ (l : List ClauseResult) (seen : List (ClauseType × String)),
      l.Pairwise (fun u v => v.confidence ≤ u.confidence) →
      ∀ r ∈ l, dedupKey r ∈ seen ∨
        ∃ r', r' ∈ dedupLoop l seen ∧ dedupKey r' = dedupKey r ∧
          r.confidence ≤ r'.confidence := by
  intro l
  induction l with
  | nil => intro seen _ r hr; simp at hr
  | cons x xs ih =>
    intro seen hp r hr
    rcases List.pairwise_cons.mp hp with ⟨hx, hxs⟩
    by_cases hk : dedupKey x ∈ seen
    · rw [dedupLoop, if_pos hk]
      rcases List.mem_cons.mp hr with rfl | hr
      · exact Or.inl hk
      · exact ih seen hxs r hr
    · rw [dedupLoop, if_neg hk]
      rcases List.mem_cons.mp hr with rfl | hr
      · exact Or.inr ⟨r, List.mem_cons_self r _, rfl, le_refl _⟩
      · rcases ih (dedupKey x :: seen) hxs r hr with hmem | ⟨r', hr', hkey, hconf⟩
        · rcases List.mem_cons.mp hmem with heq | hmem
          · exact Or.inr ⟨x, List.mem_cons_self x _, heq.symm, hx r hr⟩
          · exact Or.inl hmem
        · exact Or.inr ⟨r', List.mem_cons_of_mem x hr', hkey, hconf⟩

/-- Deduplicated results come from the input list. -/
theorem dedup_subset (results : List ClauseResult) (r : ClauseResult) :
    r ∈ deduplicateResults results → r ∈ results := by
  intro h
  have h1 := mem_of_mem_dedupLoop _ _ _ h
  exact (mem_sortDescBy (fun r => r.confidence) r results).mp h1

/-- Deduplicated results have pairwise distinct keys. -/
theorem dedup_distinct_keys (results : List ClauseResult) :
    (deduplicateResults results).Pairwise (fun a b => dedupKey a ≠ dedupKey b) :=
  dedupLoop_pairwise_keys _ []

/-- Every input result is represented in the deduplicated output by an
element with the same key and at least its confidence. -/
theorem dedup_representative (results : List ClauseResult) (r : ClauseResult) :
    r ∈ results →
    ∃ r', r' ∈ deduplicateResults results ∧ dedupKey r' = dedupKey r ∧
      r.confidence ≤ r'.confidence := by
  intro hr
  have hmem : r ∈ sortDescBy (fun r => r.confidence) results :=
    (mem_sortDescBy (fun r => r.confidence) r results).mpr hr
  rcases dedupLoop_representative _ []
      (pairwise_sortDescBy (fun r => r.confidence) results) r hmem with h | h
  · simp at h
  · exact h

/-- Number of patterns of a rule matched by the regex oracle on a text. -/
def patternHits (rtest : RegexTest) (text : String) (rule : ClassifierRule) : Nat :=
  rule.patterns.countP fun p => rtest p text

/-- Number of keywords of a rule found by the regex oracle on a text, each
keyword compiled through keywordToRegexSource. -/
def keywordHits (rtest : RegexTest) (text : String) (rule : ClassifierRule) : Nat :=
  rule.keywords.countP fun kw => rtest (keywordToRegexSource kw) text

/-- The raw accumulated score of a rule on a text: weight times 0.7 per
matching pattern plus weight times 0.3 per matching keyword. -/
def ruleRawScore (rtest : RegexTest) (text : String) (rule : ClassifierRule) : Rat :=
  (patternHits rtest text rule : Rat) * (rule.weightedScore * (7 / 10))
    + (keywordHits rtest text rule : Rat) * (rule.weightedScore * (3 / 10))

/-- A score-and-count fold over a list adds the matched count times the
increment to the score and the matched count to the counter. -/
theorem foldl_hits (inc : Rat) (test : String → Bool) :
    ∀ (srcs : List String) (s0 : Rat) (c0 : Nat),
      srcs.foldl (fun sc p => if test p then (sc.1 + inc, sc.2 + 1) else sc) (s0, c0)
        = (s0 + (srcs.countP test : Rat) * inc, c0 + srcs.countP test) := by
  intro srcs
  induction srcs with
  | nil => intro s0 c0; simp
  | cons a as ih =>
    intro s0 c0
    by_cases h : test a
    · rw [List.foldl_cons, if_pos h, ih]
      rw [List.countP_cons_of_pos _ _ h]
      simp only [Prod.mk.injEq]
      refine ⟨?_, by omega⟩
      push_cast
      ring
    · rw [List.foldl_cons, if_neg h, ih]
      rw [List.countP_cons_of_neg _ _ h]

/-- The two nested folds of findMatchingRules compute exactly the raw score
and the total number of pattern and keyword matches. -/
theorem rule_scan_eq (rtest : RegexTest) (text : String) (rule : ClassifierRule) :
    (rule.keywords.foldl
      (fun sc kw => if rtest (keywordToRegexSource kw) text then
          (sc.1 + rule.weightedScore * (3 / 10), sc.2 + 1) else sc)
      (rule.patterns.foldl
        (fun sc p => if rtest p text then
            (sc.1 + rule.weightedScore * (7 / 10), sc.2 + 1) else sc)
        ((0 : Rat), (0 : Nat))))
      = (ruleRawScore rtest text rule,
          patternHits rtest text rule + keywordHits rtest text rule) := by
  rw [foldl_hits (rule.weightedScore * (7 / 10)) (fun p => rtest p text)]
  rw [foldl_hits (rule.weightedScore * (3 / 10)) (fun kw => rtest (keywordToRegexSource kw) text)]
  rw [ruleRawScore, patternHits, keywordHits]
  simp only [Prod.mk.injEq]
  refine ⟨by ring, by omega⟩

/-- findMatchingRules rewritten through the scan characterization: collect
(rule, capped raw score) for every rule whose scan matched and cleared the
threshold, then sort by descending score. -/
theorem findMatchingRules_eq (rtest : RegexTest) (text : String) :
    findMatchingRules rtest text = sortDescBy (fun m => m.2)
      (CLASSIFICATION_RULES.foldr (fun rule acc =>
        if 0 < patternHits rtest text rule + keywordHits rtest text rule ∧
            1 / 5 < ruleRawScore rtest text rule then
          (rule, min (ruleRawScore rtest text rule) 1) :: acc
        else acc) []) := by
  simp only [findMatchingRules, rule_scan_eq]

/-- Membership in a conditional-collect foldr. -/
theorem mem_collectFoldr (P : ClassifierRule → Prop) [DecidablePred P]
    (f : ClassifierRule → Rat) (x : ClassifierRule × Rat) :
    ∀ rules : List ClassifierRule,
      (x ∈ rules.foldr (fun rule acc => if P rule then (rule, f rule) :: acc else acc) [] ↔
        ∃ r, r ∈ rules ∧ P r ∧ x = (r, f r)) := by
  intro rules
  induction rules with
  | nil => simp
  | cons a as ih =>
    by_cases h : P a
    · simp only [List.foldr_cons, if_pos h, List.mem_cons, ih, List.mem_cons]
      constructor
      · rintro (rfl | ⟨r, hr, hP, rfl⟩)
        · exact ⟨a, Or.inl rfl, h, rfl⟩
        · exact ⟨r, Or.inr hr, hP, rfl⟩
      · rintro ⟨r, rfl | hr, hP, rfl⟩
        · exact Or.inl rfl
        · exact Or.inr ⟨r, hr, hP, rfl⟩
    · simp only [List.foldr_cons, if_neg h, ih, List.mem_cons]
      constructor
      · rintro ⟨r, hr, hP, rfl⟩
        exact ⟨r, Or.inr hr, hP, rfl⟩
      · rintro ⟨r, rfl | hr, hP, rfl⟩
        · exact absurd hP h
        · exact ⟨r, hr, hP, rfl⟩

/-- Full membership characterization of findMatchingRules. -/
theorem mem_findMatchingRules (rtest : RegexTest) (text : String)
    (rule : ClassifierRule) (s : Rat) :
    (rule, s) ∈ findMatchingRules rtest text ↔
      rule ∈ CLASSIFICATION_RULES ∧
      0 < patternHits rtest text rule + keywordHits rtest text rule ∧
      1 / 5 < ruleRawScore rtest text rule ∧
      s = min (ruleRawScore rtest text rule) 1 := by
  rw [findMatchingRules_eq, mem_sortDescBy, mem_collectFoldr]
  constructor
  · rintro ⟨r, hr, hP, heq⟩
    obtain ⟨rfl, rfl⟩ := Prod.mk.injEq .. ▸ heq
    · exact ⟨hr, hP.1, hP.2, rfl⟩
  · rintro ⟨hr, h1, h2, rfl⟩
    exact ⟨rule, hr, ⟨h1, h2⟩, rfl⟩

/-- Every score produced by findMatchingRules lies in the unit interval. -/
theorem findMatchingRules_conf_bounds (rtest : RegexTest) (text : String)
    (rule : ClassifierRule) (s : Rat) :
    (rule, s) ∈ findMatchingRules rtest text → 0 ≤ s ∧ s ≤ 1 := by
  intro h
  rw [mem_findMatchingRules] at h
  obtain ⟨-, -, hraw, rfl⟩ := h
  have hraw0 : (0 : Rat) ≤ ruleRawScore rtest text rule :=
    le_of_lt (lt_trans (by norm_num) hraw)
  exact ⟨le_min hraw0 (by norm_num), min_le_right _ _⟩

/-- Every numbered result is the clause built from some candidate with some
generated id. -/
theorem mem_numberResults (f : Nat → String) :
    ∀ (cs : List (Nat × String × ClassifierRule × Rat)) (k : Nat) (a : ClauseResult),
      a ∈ numberResults f k cs →
      ∃ k' c, c ∈ cs ∧ a = mkClauseResult (f k') c := by
  intro cs
  induction cs with
  | nil => intro k a h; simp [numberResults] at h
  | cons c rest ih =>
    intro k a h
    rw [numberResults] at h
    rcases List.mem_cons.mp h with rfl | h
    · exact ⟨k, c, List.mem_cons_self c rest, rfl⟩
    · obtain ⟨k', c', hc', ha⟩ := ih (k + 1) a h
      exact ⟨k', c', List.mem_cons_of_mem c hc', ha⟩

/-- Every candidate match records one of the paragraphs as its text and a
pair produced by findMatchingRules on that very paragraph. -/
theorem mem_candidateMatchesFrom (rtest : RegexTest) :
    ∀ (ps : List String) (i : Nat) (c : Nat × String × ClassifierRule × Rat),
      c ∈ candidateMatchesFrom rtest i ps →
      c.2.1 ∈ ps ∧ (c.2.2.1, c.2.2.2) ∈ findMatchingRules rtest c.2.1 := by
  intro ps
  induction ps with
  | nil => intro i c h; simp [candidateMatchesFrom] at h
  | cons p rest ih =>
    intro i c h
    rw [candidateMatchesFrom] at h
    rcases List.mem_append.mp h with h | h
    · obtain ⟨rs, hrs, rfl⟩ := List.mem_map.mp h
      exact ⟨List.mem_cons_self p rest, hrs⟩
    · obtain ⟨hmem, hfind⟩ := ih (i + 1) c h
      exact ⟨List.mem_cons_of_mem p hmem, hfind⟩

/-- Every clause produced by classifyText is built from a candidate match of
one of the paragraphs. -/
theorem classifyText_mem_structure (rtest : RegexTest) (idGen : Nat → String)
    (ps : List String) (m : ClauseResult) :
    m ∈ classifyText rtest idGen ps →
    ∃ k c, c ∈ candidateMatches rtest ps ∧ m = mkClauseResult (idGen k) c := by
  intro h
  have h1 := dedup_subset _ _ h
  exact mem_numberResults idGen _ 0 m h1

/-- Every clause produced by classifyText has a confidence in the unit
interval. -/
theorem classifyText_conf_bounds (rtest : RegexTest) (idGen : Nat → String)
    (ps : List String) (m : ClauseResult) :
    m ∈ classifyText rtest idGen ps → 0 ≤ m.confidence ∧ m.confidence ≤ 1 := by
  intro h
  obtain ⟨k, c, hc, rfl⟩ := classifyText_mem_structure rtest idGen ps m h
  obtain ⟨-, hfind⟩ := mem_candidateMatchesFrom rtest ps 0 c hc
  exact findMatchingRules_conf_bounds rtest c.2.1 c.2.2.1 c.2.2.2 hfind

/-- Results agreeing after id erasure have the same confidence. -/
theorem eraseId_confidence {a b : ClauseResult} (h : eraseId a = eraseId b) :
    a.confidence = b.confidence := by
  have hc := congrArg ClauseResult.confidence h
  simpa [eraseId] using hc

/-- Results agreeing after id erasure have the same deduplication key. -/
theorem eraseId_dedupKey {a b : ClauseResult} (h : eraseId a = eraseId b) :
    dedupKey a = dedupKey b := by
  have ht := congrArg ClauseResult.type h
  have hx := congrArg ClauseResult.text h
  simp only [eraseId] at ht hx
  rw [dedupKey, dedupKey, ht, hx]

/-- Insertion into confidence-sorted lists respects pointwise id-erased
agreement. -/
theorem forall₂_insertDescBy {x y : ClauseResult} (hxy : eraseId x = eraseId y) :
    ∀ {l l' : List ClauseResult},
      List.Forall₂ (fun a b => eraseId a = eraseId b) l l' →
      List.Forall₂ (fun a b => eraseId a = eraseId b)
        (insertDescBy (fun r => r.confidence) x l)
        (insertDescBy (fun r => r.confidence) y l') := by
  intro l l' h
  induction h with
  | nil => exact List.Forall₂.cons hxy List.Forall₂.nil
  | cons hab htail ih =>
    rename_i a b as bs
    by_cases hc : a.confidence ≤ x.confidence
    · have hc' : b.confidence ≤ y.confidence := by
        rw [← eraseId_confidence hab, ← eraseId_confidence hxy]; exact hc
      rw [insertDescBy, if_pos hc, insertDescBy, if_pos hc']
      exact List.Forall₂.cons hxy (List.Forall₂.cons hab htail)
    · have hc' : ¬ b.confidence ≤ y.confidence := by
        rw [← eraseId_confidence hab, ← eraseId_confidence hxy]; exact hc
      rw [insertDescBy, if_neg hc, insertDescBy, if_neg hc']
      exact List.Forall₂.cons hab ih

/-- The descending confidence sort respects pointwise id-erased agreement. -/
theorem forall₂_sortDescBy {l l' : List ClauseResult}
    (h : List.Forall₂ (fun a b => eraseId a = eraseId b) l l') :
    List.Forall₂ (fun a b => eraseId a = eraseId b)
      (sortDescBy (fun r => r.confidence) l)
      (sortDescBy (fun r => r.confidence) l') := by
  induction h with
  | nil => exact List.Forall₂.nil
  | cons hab htail ih => exact forall₂_insertDescBy hab ih

/-- The deduplication walk respects pointwise id-erased agreement. -/
theorem forall₂_dedupLoop {l l' : List ClauseResult}
    (h : List.Forall₂ (fun a b => eraseId a = eraseId b) l l') :
    ∀ seen, List.Forall₂ (fun a b => eraseId a = eraseId b)
      (dedupLoop l seen) (dedupLoop l' seen) := by
  induction h with
  | nil => intro seen; exact List.Forall₂.nil
  | cons hab htail ih =>
    rename_i a b as bs
    intro seen
    by_cases hk : dedupKey a ∈ seen
    · have hk' : dedupKey b ∈ seen := eraseId_dedupKey hab ▸ hk
      rw [dedupLoop, if_pos hk, dedupLoop, if_pos hk']
      exact ih seen
    · have hk' : dedupKey b ∉ seen := eraseId_dedupKey hab ▸ hk
      rw [dedupLoop, if_neg hk, dedupLoop, if_neg hk']
      rw [eraseId_dedupKey hab]
      exact List.Forall₂.cons hab (ih _)

/-- Numbering the same candidates under two id supplies gives pointwise
id-erased agreement. -/
theorem forall₂_numberResults (f g : Nat → String) :
    ∀ (cs : List (Nat × String × ClassifierRule × Rat)) (k : Nat),
      List.Forall₂ (fun a b => eraseId a = eraseId b)
        (numberResults f k cs) (numberResults g k cs) := by
  intro cs
  induction cs with
  | nil => intro k; exact List.Forall₂.nil
  | cons c rest ih =>
    intro k
    rw [numberResults, numberResults]
    exact List.Forall₂.cons rfl (ih (k + 1))

/-- Pointwise id-erased agreement gives equal id-erased projections. -/
theorem forall₂_map_eraseId {l l' : List ClauseResult}
    (h : List.Forall₂ (fun a b => eraseId a = eraseId b) l l') :
    l.map eraseId = l'.map eraseId := by
  induction h with
  | nil => rfl
  | cons hab htail ih => simp only [List.map_cons, hab, ih]

/-- The push loop of mergeClassificationResults appends, to any
accumulator, the prefixed local clauses that are similar to no AI clause. -/
theorem merge_foldl (aiClauses : List ClauseResult) :
    ∀ (localClauses acc : List ClauseResult),
      localClauses.foldl (fun merged localClause =>
        if (aiClauses.find? fun aiClause =>
              areSimilarClauses aiClause.text localClause.text).isSome then
          merged
        else merged ++ [prefixLocalReason localClause]) acc
      = acc ++ ((localClauses.filter fun lc =>
          !(aiClauses.any fun ac => areSimilarClauses ac.text lc.text)).map
            prefixLocalReason) := by
  intro localClauses
  induction localClauses with
  | nil => intro acc; simp
  | cons lc rest ih =>
    intro acc
    have hiff : (aiClauses.find? fun ac => areSimilarClauses ac.text lc.text).isSome
        = (aiClauses.any fun ac => areSimilarClauses ac.text lc.text) := by
      rw [Bool.eq_iff_iff]
      rw [List.find?_isSome, List.any_eq_true]
    by_cases h : (aiClauses.find? fun ac => areSimilarClauses ac.text lc.text).isSome
    · have hany : (aiClauses.any fun ac => areSimilarClauses ac.text lc.text) = true :=
        hiff ▸ h
      rw [List.foldl_cons, if_pos h, ih, List.filter_cons]
      simp [hany]
    · have hany : (aiClauses.any fun ac => areSimilarClauses ac.text lc.text) = false := by
        rw [← hiff]
        exact Bool.not_eq_true _ ▸ h
      rw [List.foldl_cons, if_neg h, ih, List.filter_cons]
      simp [hany]

/-- A running-total fold equals the accumulator plus the mapped sum. -/
theorem foldl_add_eq (f : ClauseResult → Rat) :
    ∀ (cs : List ClauseResult) (t0 : Rat),
      cs.foldl (fun t c => t + f c) t0 = t0 + (cs.map f).sum := by
  intro cs
  induction cs with
  | nil => intro t0; simp
  | cons c rest ih =>
    intro t0
    rw [List.foldl_cons, ih, List.map_cons, List.sum_cons]
    ring

/-- totalRiskScore is the sum, over all clauses, of risk weight times
confidence. -/
theorem totalRiskScore_eq_sum (cs : List ClauseResult) :
    totalRiskScore cs = (cs.map fun c => riskWeight c.riskLevel * c.confidence).sum := by
  rw [totalRiskScore, foldl_add_eq]
  ring

/-- The risk weight is between 10 and 30. -/
theorem riskWeight_bounds (rl : RiskLevel) :
    0 < riskWeight rl ∧ riskWeight rl ≤ 30 := by
  cases rl <;> norm_num [riskWeight]

/-- With unit-interval confidences the accumulated risk total lies between
zero and thirty per clause. -/
theorem totalRiskScore_bounds :
    ∀ cs : List ClauseResult,
      (∀ c ∈ cs, 0 ≤ c.confidence ∧ c.confidence ≤ 1) →
      0 ≤ totalRiskScore cs ∧ totalRiskScore cs ≤ 30 * cs.length := by
  intro cs
  induction cs with
  | nil => intro _; simp [totalRiskScore]
  | cons c rest ih =>
    intro hconf
    obtain ⟨hc0, hc1⟩ := hconf c (List.mem_cons_self c rest)
    obtain ⟨ih0, ih1⟩ := ih fun x hx => hconf x (List.mem_cons_of_mem c hx)
    obtain ⟨hw0, hw1⟩ := riskWeight_bounds c.riskLevel
    have hterm0 : 0 ≤ riskWeight c.riskLevel * c.confidence :=
      mul_nonneg (le_of_lt hw0) hc0
    have hterm1 : riskWeight c.riskLevel * c.confidence ≤ 30 := by
      calc riskWeight c.riskLevel * c.confidence
          ≤ 30 * c.confidence := mul_le_mul_of_nonneg_right hw1 hc0
        _ ≤ 30 * 1 := mul_le_mul_of_nonneg_left hc1 (by norm_num)
        _ = 30 := by norm_num
    rw [totalRiskScore_eq_sum] at ih0 ih1 ⊢
    rw [List.map_cons, List.sum_cons]
    constructor
    · positivity
    · simp only [List.length_cons]
      push_cast
      linarith

/-- With unit-interval confidences the overall risk score lies in the range
zero to thirty, so the cap at 100 never takes effect. -/
theorem riskScore_range (cs : List ClauseResult)
    (hconf : ∀ c ∈ cs, 0 ≤ c.confidence ∧ c.confidence ≤ 1) :
    0 ≤ calculateOverallRiskScore cs ∧ calculateOverallRiskScore cs ≤ 30 := by
  by_cases hlen : cs.length = 0
  · rw [calculateOverallRiskScore, if_pos hlen]
    norm_num
  · rw [calculateOverallRiskScore, if_neg hlen]
    obtain ⟨ht0, ht1⟩ := totalRiskScore_bounds cs hconf
    have hn : (0 : Rat) < (cs.length : Rat) := by
      have : 0 < cs.length := Nat.pos_of_ne_zero hlen
      exact_mod_cast this
    have hmean0 : 0 ≤ totalRiskScore cs / (cs.length : Rat) := div_nonneg ht0 (le_of_lt hn)
    have hmean1 : totalRiskScore cs / (cs.length : Rat) ≤ 30 := by
      rw [div_le_iff₀ hn]
      linarith
    have hj0 : 0 ≤ jsRound (totalRiskScore cs / (cs.length : Rat)) := by
      rw [jsRound]
      exact Int.le_floor.mpr (by push_cast; linarith)
    have hj1 : jsRound (totalRiskScore cs / (cs.length : Rat)) ≤ 30 := by
      rw [jsRound]
      have : totalRiskScore cs / (cs.length : Rat) + 1 / 2 < ((31 : Int) : Rat) := by
        push_cast
        linarith
      have hlt := Int.floor_lt.mpr this
      omega
    exact ⟨le_min hj0 (by norm_num), le_trans (min_le_left _ _) hj1⟩

/-- High-risk local match with confidence 0.9, for the degraded-branch
scenario. -/
def degradedScenarioHigh : ClauseResult :=
  { id := "s1", text := "scenario clause one"
    type := ClauseType.security_deposit, confidence := 9 / 10
    position := { x := 0, y := 0, width := 100, height := 40 }
    riskLevel := RiskLevel.high
    reason := "scenario", legalBasis := none, suggestion := none }

/-- Medium-risk local match with confidence 0.6. -/
def degradedScenarioMed1 : ClauseResult :=
  { degradedScenarioHigh with
    id := "s2", confidence := 6 / 10, riskLevel := RiskLevel.medium }

/-- Medium-risk local match with confidence 0.5. -/
def degradedScenarioMed2 : ClauseResult :=
  { degradedScenarioHigh with
    id := "s3", confidence := 5 / 10, riskLevel := RiskLevel.medium }

/-- A regex oracle that reports a match for every pattern. -/
def allTrueRegex : RegexTest := fun _ _ => true

/-- A generic sample clause used by witness instantiations. -/
def sampleClause : ClauseResult :=
  { id := "w1", text := "witness clause text"
    type := ClauseType.rent_hike, confidence := 7 / 10
    position := { x := 0, y := 0, width := 100, height := 40 }
    riskLevel := RiskLevel.medium
    reason := "witness", legalBasis := none, suggestion := none }

/-- C1. For the degraded reconciliation branch (remote analysis absent), the
result consists of the local matches only; overallRiskScore equals the mean,
over all local matches, of 30, 20 or 10 by risk level multiplied by the
match confidence, rounded and capped at 100, and is 0 when there are no
matches (three local matches of 1 high and 2 medium with confidences 0.9,
0.6, 0.5 yield 16); compliance is compliant with a single recommendation
flagging that automated analysis was unavailable. -/
theorem claim1_degraded_reconciliation :
    (∀ (rtest : RegexTest) (idGen : Nat → String) (text : String),
      classifyWithAI none rtest idGen text =
        { clauses := classifyText rtest idGen (splitParagraphs text)
          overallRiskScore :=
            calculateOverallRiskScore (classifyText rtest idGen (splitParagraphs text))
          governmentCompliance :=
            { compliant := true, violations := []
              recommendations := ["AI analysis unavailable - manual review recommended"] }
          summary := "Local analysis found "
            ++ toString (classifyText rtest idGen (splitParagraphs text)).length
            ++ " potential issues. AI analysis unavailable." }) ∧
    calculateOverallRiskScore [] = 0 ∧
    (∀ cs : List ClauseResult, cs ≠ [] →
      calculateOverallRiskScore cs
        = min (jsRound (totalRiskScore cs / (cs.length : Rat))) 100) ∧
    (∀ cs : List ClauseResult,
      totalRiskScore cs = (cs.map fun c => riskWeight c.riskLevel * c.confidence).sum) ∧
    (riskWeight RiskLevel.high = 30 ∧ riskWeight RiskLevel.medium = 20 ∧
      riskWeight RiskLevel.low = 10) ∧
    calculateOverallRiskScore
      [degradedScenarioHigh, degradedScenarioMed1, degradedScenarioMed2] = 16 := by
  refine ⟨fun rtest idGen text => rfl, rfl, ?_, totalRiskScore_eq_sum,
    ⟨rfl, rfl, rfl⟩, ?_⟩
  · intro cs h
    rw [calculateOverallRiskScore, if_neg (by simpa using h)]
  · norm_num [calculateOverallRiskScore, totalRiskScore, jsRound, riskWeight,
      degradedScenarioHigh, degradedScenarioMed1, degradedScenarioMed2]

/-- Witness for C1: the non-empty-list formula instantiated at a concrete
one-element clause list. -/
theorem claim1_witness :
    [degradedScenarioHigh] ≠ ([] : List ClauseResult) ∧
    calculateOverallRiskScore [degradedScenarioHigh]
      = min (jsRound (totalRiskScore [degradedScenarioHigh]
          / (([degradedScenarioHigh] : List ClauseResult).length : Rat))) 100 :=
  ⟨by simp, claim1_degraded_reconciliation.2.2.1 [degradedScenarioHigh] (by simp)⟩

/-- C3. For every paragraph and rule, the accumulated score is weight times
0.7 per matching regex pattern plus weight times 0.3 per matching keyword; a
candidate match is produced exactly when at least one pattern or keyword
matched and the score strictly exceeds 0.2; the confidence is the score
capped at 1 and always lies in the unit interval. -/
theorem claim3_weighted_scoring :
    ∀ (rtest : RegexTest) (text : String) (rule : ClassifierRule) (s : Rat),
      ((rule, s) ∈ findMatchingRules rtest text ↔
        rule ∈ CLASSIFICATION_RULES ∧
        0 < patternHits rtest text rule + keywordHits rtest text rule ∧
        1 / 5 < ruleRawScore rtest text rule ∧
        s = min (ruleRawScore rtest text rule) 1) ∧
      ((rule, s) ∈ findMatchingRules rtest text → 0 ≤ s ∧ s ≤ 1) ∧
      ruleRawScore rtest text rule
        = (patternHits rtest text rule : Rat) * (rule.weightedScore * (7 / 10))
          + (keywordHits rtest text rule : Rat) * (rule.weightedScore * (3 / 10)) := by
  intro rtest text rule s
  exact ⟨mem_findMatchingRules rtest text rule s,
    findMatchingRules_conf_bounds rtest text rule s, rfl⟩

/-- Witness for C3: with an all-matching oracle the high-risk security
deposit rule is a candidate with confidence 1, and the bound conjunct
applies to it. -/
theorem claim3_witness :
    (securityDepositHighRule, (1 : Rat)) ∈ findMatchingRules allTrueRegex "t" ∧
    (0 ≤ (1 : Rat) ∧ (1 : Rat) ≤ 1) := by
  have hmem : (securityDepositHighRule, (1 : Rat)) ∈ findMatchingRules allTrueRegex "t" := by
    rw [(claim3_weighted_scoring allTrueRegex "t" securityDepositHighRule 1).1]
    refine ⟨by norm_num [CLASSIFICATION_RULES], ?_, ?_, ?_⟩ <;>
      norm_num [patternHits, keywordHits, ruleRawScore, allTrueRegex,
        securityDepositHighRule]
  exact ⟨hmem, (claim3_weighted_scoring allTrueRegex "t" securityDepositHighRule 1).2.1 hmem⟩

/-- C9. Every match produced by the local classifier carries a whole input
paragraph as its text, and the reconciliation merge never alters the text
field: every merged clause is either a remote clause unchanged or a local
clause with only its reason prefixed. -/
theorem claim9_text_traceability :
    (∀ (rtest : RegexTest) (idGen : Nat → String) (ps : List String)
      (m : ClauseResult), m ∈ classifyText rtest idGen ps → m.text ∈ ps) ∧
    (∀ (aiCs localCs : List ClauseResult) (m : ClauseResult),
      m ∈ mergeClassificationResults aiCs localCs →
        m ∈ aiCs ∨ ∃ lc, lc ∈ localCs ∧ m = prefixLocalReason lc ∧ m.text = lc.text) := by
  constructor
  · intro rtest idGen ps m hm
    obtain ⟨k, c, hc, rfl⟩ := classifyText_mem_structure rtest idGen ps m hm
    exact (mem_candidateMatchesFrom rtest ps 0 c hc).1
  · intro aiCs localCs m hm
    rw [mergeClassificationResults, merge_foldl] at hm
    rcases List.mem_append.mp hm with h | h
    · exact Or.inl h
    · obtain ⟨lc, hlc, rfl⟩ := List.mem_map.mp h
      exact Or.inr ⟨lc, List.mem_of_mem_filter hlc, rfl, rfl⟩

/-- Witness for C9: the merge conjunct applied to a singleton remote list
and no local matches. -/
theorem claim9_witness :
    sampleClause ∈ mergeClassificationResults [sampleClause] [] ∧
    (sampleClause ∈ [sampleClause] ∨
      ∃ lc, lc ∈ ([] : List ClauseResult) ∧ sampleClause = prefixLocalReason lc ∧
        sampleClause.text = lc.text) :=
  ⟨by simp [mergeClassificationResults],
    claim9_text_traceability.2 [sampleClause] [] sampleClause
      (by simp [mergeClassificationResults])⟩

/-- C10. For every paragraph list, the degraded-branch overall risk score of
the local classification lies between 0 and 30, so the cap at 100 never
takes effect. -/
theorem claim10_degraded_score_range :
    ∀ (rtest : RegexTest) (idGen : Nat → String) (ps : List String),
      0 ≤ calculateOverallRiskScore (classifyText rtest idGen ps) ∧
      calculateOverallRiskScore (classifyText rtest idGen ps) ≤ 30 := by
  intro rtest idGen ps
  exact riskScore_range _ (fun c hc => classifyText_conf_bounds rtest idGen ps c hc)

/-- Oracle that matches exactly one pattern source, the first pattern of the
medium-risk security deposit rule, regardless of text. -/
def dedupScenarioRtest : RegexTest :=
  fun p _ => p == "deposit.*(?:subject\\s+to|conditions?|terms?)"

/-- An 80-character prefix shared by the two scenario paragraphs. -/
def dedupScenarioStem : String :=
  "abcdefghijklmnopqrstuvwxyzabcdefghijklmnopqrstuvwxyzabcdefghijklmnopqrstuvwxyzab"

/-- First scenario paragraph: the shared 80-character prefix plus one
suffix. -/
def dedupScenarioParaA : String := dedupScenarioStem ++ " first suffix"

/-- Second scenario paragraph: the same prefix with a different suffix. -/
def dedupScenarioParaB : String := dedupScenarioStem ++ " second ending"

/-- C4. Deduplication sorts descending by confidence and keeps a match only
when no previously kept match shares the (clauseType, first-50-characters)
key, keeping the highest-confidence representative of each group; two
paragraphs sharing an 80-character prefix that match the same rule collapse
to one match in the local classifier output. -/
theorem claim4_deduplication :
    (∀ results : List ClauseResult,
      deduplicateResults results
        = dedupLoop (sortDescBy (fun r => r.confidence) results) []) ∧
    (∀ results : List ClauseResult,
      (deduplicateResults results).Pairwise (fun a b => dedupKey a ≠ dedupKey b)) ∧
    (∀ (results : List ClauseResult) (r' : ClauseResult),
      r' ∈ deduplicateResults results → r' ∈ results) ∧
    (∀ (results : List ClauseResult) (r : ClauseResult), r ∈ results →
      ∃ r', r' ∈ deduplicateResults results ∧ dedupKey r' = dedupKey r ∧
        r.confidence ≤ r'.confidence) ∧
    (jsSubstring0 dedupScenarioParaA 50 = jsSubstring0 dedupScenarioParaB 50 ∧
      dedupScenarioParaA ≠ dedupScenarioParaB ∧
      (classifyText dedupScenarioRtest (fun k => toString k)
        [dedupScenarioParaA, dedupScenarioParaB]).length = 1) := by
  refine ⟨fun results => rfl, dedup_distinct_keys, dedup_subset,
    dedup_representative, ?_, ?_, ?_⟩
  · norm_num [jsSubstring0, dedupScenarioParaA, dedupScenarioParaB, dedupScenarioStem]
  · decide
  · norm_num +decide [classifyText, candidateMatches, candidateMatchesFrom,
      findMatchingRules, dedupScenarioRtest, dedupScenarioParaA, dedupScenarioParaB,
      dedupScenarioStem, CLASSIFICATION_RULES, securityDepositHighRule,
      securityDepositMediumRule, rentHikeHighRule, rentHikeMediumRule,
      lockInHighRule, lockInMediumRule, keywordToRegexSource, kwReplaceAux,
      Char.isWhitespace, sortDescBy, insertDescBy, deduplicateResults, dedupLoop,
      dedupKey, jsSubstring0, numberResults, mkClauseResult]

/-- Witness for C4: the representative conjunct applied to a concrete
singleton list. -/
theorem claim4_witness :
    ∃ r', r' ∈ deduplicateResults [sampleClause] ∧
      dedupKey r' = dedupKey sampleClause ∧
      sampleClause.confidence ≤ r'.confidence :=
  claim4_deduplication.2.2.2.1 [sampleClause] sampleClause (by simp)

/-- A remote report with summary X and no clauses, for the summary
passthrough scenario. -/
def remoteSummaryX : LegalAnalysisResult :=
  { clauses := []
    overallRiskScore := 0
    governmentCompliance := { compliant := true, violations := [], recommendations := [] }
    summary := "X" }

/-- C5. With a remote report present, reconciliation starts from the remote
clause set and never drops a remote match; a local match is appended exactly
when no remote match is similar to it, similarity being mutual
first-50-characters containment of the normalized texts; appended local
matches get the local-detection reason marker; and score, compliance and
summary come verbatim from the remote report (a remote summary X passes
through unchanged with no local matches). -/
theorem claim5_remote_merge :
    (∀ aiCs localCs : List ClauseResult,
      mergeClassificationResults aiCs localCs
        = aiCs ++ ((localCs.filter fun lc =>
            !(aiCs.any fun ac => areSimilarClauses ac.text lc.text)).map
              prefixLocalReason)) ∧
    (∀ aiCs localCs : List ClauseResult, ∀ a ∈ aiCs,
      a ∈ mergeClassificationResults aiCs localCs) ∧
    (∀ t1 t2 : String,
      areSimilarClauses t1 t2
        = (strIncludes (normalizeClause t1) (jsSubstring0 (normalizeClause t2) 50)
            || strIncludes (normalizeClause t2) (jsSubstring0 (normalizeClause t1) 50))) ∧
    (∀ (ai : LegalAnalysisResult) (rtest : RegexTest) (idGen : Nat → String)
      (text : String),
      classifyWithAI (some ai) rtest idGen text =
        { clauses := mergeClassificationResults ai.clauses
            (classifyText rtest idGen (splitParagraphs text))
          overallRiskScore := ai.overallRiskScore
          governmentCompliance := ai.governmentCompliance
          summary := ai.summary }) ∧
    (∀ (rtest : RegexTest) (idGen : Nat → String),
      (classifyWithAI (some remoteSummaryX) rtest idGen "document").summary = "X") := by
  have hmerge : ∀ aiCs localCs : List ClauseResult,
      mergeClassificationResults aiCs localCs
        = aiCs ++ ((localCs.filter fun lc =>
            !(aiCs.any fun ac => areSimilarClauses ac.text lc.text)).map
              prefixLocalReason) := by
    intro aiCs localCs
    rw [mergeClassificationResults, merge_foldl]
  refine ⟨hmerge, ?_, fun t1 t2 => rfl, fun ai rtest idGen text => rfl,
    fun rtest idGen => rfl⟩
  intro aiCs localCs a ha
  rw [hmerge]
  exact List.mem_append_left _ ha

/-- Witness for C5: the never-drops-a-remote-match conjunct applied to a
concrete singleton remote list. -/
theorem claim5_witness :
    sampleClause ∈ mergeClassificationResults [sampleClause] [sampleClause] :=
  claim5_remote_merge.2.1 [sampleClause] [sampleClause] sampleClause (by simp)

/-- C2 counterexample. A reply carrying no structured object makes the
parse fail, yet analyzeLegalDocument returns a successful default report
with an empty clause list instead of the AnalysisUnavailable failure: the
claim that any parse exception produces the failure is false on the code. -/
theorem claim2_counterexample :
    analyzeLegalDocument
        (GeminiTransport.success "The service replied with prose and no structured object.")
        (fun _ => none) (fun _ => "id") "doc text" GovernmentType.general
      = Except.ok defaultAnalysisFallback ∧
    defaultAnalysisFallback.clauses = [] ∧
    defaultAnalysisFallback.summary
      = "Unable to perform detailed analysis. Please review the document manually." := by
  refine ⟨?_, rfl, rfl⟩
  rfl

/-- C2 amended. analyzeLegalDocument fails with the AnalysisUnavailable
error exactly on transport or service errors; a received reply always
produces a successful report, and any exception inside response parsing
(no structured object found, or a JSON.parse failure) yields the fallback
default report with an empty clause list rather than a failure. -/
theorem claim2_amended_contract :
    ∀ (jsonParse : JsonParse) (idGen : Nat → String) (text : String)
      (gt : GovernmentType) (resp : String),
      analyzeLegalDocument GeminiTransport.failure jsonParse idGen text gt
        = Except.error "Failed to analyze legal document" ∧
      analyzeLegalDocument (GeminiTransport.success resp) jsonParse idGen text gt
        = Except.ok (parseAnalysisResponse jsonParse idGen resp text gt) ∧
      ((extractJsonBlock resp).bind jsonParse = none →
        analyzeLegalDocument (GeminiTransport.success resp) jsonParse idGen text gt
          = Except.ok defaultAnalysisFallback) := by
  intro jsonParse idGen text gt resp
  refine ⟨rfl, rfl, ?_⟩
  intro h
  rw [analyzeLegalDocument, parseAnalysisResponse, h]

/-- Witness for the amended C2: a concrete garbled reply hits the fallback
branch. -/
theorem claim2_witness :
    analyzeLegalDocument (GeminiTransport.success "the model declines to reply in the requested format")
        (fun _ => none) (fun _ => "w") "text" GovernmentType.india
      = Except.ok defaultAnalysisFallback :=
  (claim2_amended_contract (fun _ => none) (fun _ => "w") "text"
    GovernmentType.india "the model declines to reply in the requested format").2.2 rfl

/-- A Devanagari sample text of more than ten characters, as a first-pass
extraction result whose language the detector identifies as Hindi. -/
def hindiSampleText : String := "यह एक किराया समझौता है"

/-- C6 code bug. With a first pass whose text the detector identifies as
Hindi, the mapped profile is hin and differs from the baseline, so a second
extraction pass is run; but the second call, like the first, passes no
language argument to the extraction service (langArg is none for both
passes and the mapped profile appears only in the progress status note), so
the second pass does not use the mapped profile. The true parts also hold:
unknown detector codes fall back to the baseline, short texts skip
detection and keep the baseline single-pass result, and cmn maps to
chi_sim. -/
theorem claim6_second_pass_profile_bug :
    mapFrancToTesseract "hin" = "hin" ∧
    mapFrancToTesseract "hin" ≠ "eng" ∧
    autoModeExtraction (fun _ => "hin") hindiSampleText
      = ("hin", [ { langArg := none, statusDetectedNote := none }
                , { langArg := none, statusDetectedNote := some "hin" } ]) ∧
    ((autoModeExtraction (fun _ => "hin") hindiSampleText).2.map ExtractionPass.langArg)
      = [none, none] ∧
    some (mapFrancToTesseract "hin")
      ∉ ((autoModeExtraction (fun _ => "hin") hindiSampleText).2.map ExtractionPass.langArg) ∧
    mapFrancToTesseract "xyz" = "eng" ∧
    mapFrancToTesseract "cmn" = "chi_sim" ∧
    francWithMinLength (fun _ => "hin") 10 "short" = "und" ∧
    autoModeExtraction (fun _ => "hin") "short"
      = ("eng", [{ langArg := none, statusDetectedNote := none }]) := by
  refine ⟨rfl, by decide, ?_, rfl, by decide, rfl, rfl, ?_, ?_⟩ <;> decide

/-- C7 counterexample. With a single image and the two auto-mode passes
reporting raw progress 0 then 100 and then 0, the displayed sequence is
0, 100, 0: the first pass reports past 50 (it reaches 100), the overall
sequence is not monotonically non-decreasing, and 100 is reached before
final completion. -/
theorem claim7_counterexample :
    autoModeReported 0 1 [0, 100] [0] = [0, 100, 0] ∧
    ¬ List.Chain' (fun a b : Int => a ≤ b) (autoModeReported 0 1 [0, 100] [0]) ∧
    50 < reportedProgress 0 1 100 := by
  have h : autoModeReported 0 1 [0, 100] [0] = [0, 100, 0] := by
    norm_num [autoModeReported, reportedProgress, overallProgressQ, jsRound]
  refine ⟨h, ?_, ?_⟩
  · rw [h]; norm_num [List.chain'_cons, List.chain'_singleton]
  · norm_num [reportedProgress, overallProgressQ, jsRound]

/-- C7 amended. Both auto-mode passes map their raw per-pass progress
through the same formula round(i * 100 / n + p / n); within one pass the
reported percentage is monotonically non-decreasing in the raw progress,
but the second pass reuses the very same range as the first, so the
concatenated two-pass report is not monotone in general and the first pass
can report up to 100. -/
theorem claim7_amended_monotone :
    ∀ (i n : Nat) (pass : List Rat),
      List.Chain' (fun p q => p ≤ q) pass →
      List.Chain' (fun a b : Int => a ≤ b) (pass.map (reportedProgress i n)) := by
  intro i n pass h
  rw [List.chain'_map]
  refine h.imp ?_
  intro p q hpq
  rw [reportedProgress, reportedProgress, jsRound, jsRound]
  apply Int.floor_le_floor
  have hdiv : p / (n : Rat) ≤ q / (n : Rat) := by
    rcases Nat.eq_zero_or_pos n with hn | hn
    · rw [hn]; norm_num
    · have hn' : (0 : Rat) < (n : Rat) := by exact_mod_cast hn
      rw [div_eq_mul_inv, div_eq_mul_inv]
      exact mul_le_mul_of_nonneg_right hpq (inv_nonneg.mpr (le_of_lt hn'))
  rw [overallProgressQ, overallProgressQ]
  linarith

/-- Witness for the amended C7: a concrete monotone pass maps to a monotone
report. -/
theorem claim7_witness :
    List.Chain' (fun a b : Int => a ≤ b)
      (([0, 50, 100] : List Rat).map (reportedProgress 0 1)) :=
  claim7_amended_monotone 0 1 [0, 50, 100]
    (by simp [List.chain'_cons]; norm_num)

/-- Constant id supply producing the id a. -/
def constIdA : Nat → String := fun _ => "a"

/-- Constant id supply producing the id b. -/
def constIdB : Nat → String := fun _ => "b"

/-- C8 counterexample. The ids of classifyText output come from the random
generator: two runs on the identical paragraph list under two id supplies
give outputs whose id multisets differ, so the outputs are unequal and no
reordering by a fixed sort can make them equal — classify is not a pure
function of the paragraphs and the rule set alone. -/
theorem claim8_counterexample :
    ((classifyText allTrueRegex constIdA ["x"]).map fun r => r.id) = ["a", "a", "a"] ∧
    ((classifyText allTrueRegex constIdB ["x"]).map fun r => r.id) = ["b", "b", "b"] ∧
    classifyText allTrueRegex constIdA ["x"] ≠ classifyText allTrueRegex constIdB ["x"] ∧
    ¬ List.Perm (classifyText allTrueRegex constIdA ["x"])
        (classifyText allTrueRegex constIdB ["x"]) := by
  have ha : ((classifyText allTrueRegex constIdA ["x"]).map fun r => r.id)
      = ["a", "a", "a"] := by
    norm_num +decide [classifyText, candidateMatches, candidateMatchesFrom,
      findMatchingRules, allTrueRegex, constIdA, CLASSIFICATION_RULES,
      securityDepositHighRule, securityDepositMediumRule, rentHikeHighRule,
      rentHikeMediumRule, lockInHighRule, lockInMediumRule, keywordToRegexSource,
      kwReplaceAux, Char.isWhitespace, sortDescBy, insertDescBy,
      deduplicateResults, dedupLoop, dedupKey, jsSubstring0, numberResults,
      mkClauseResult]
  have hb : ((classifyText allTrueRegex constIdB ["x"]).map fun r => r.id)
      = ["b", "b", "b"] := by
    norm_num +decide [classifyText, candidateMatches, candidateMatchesFrom,
      findMatchingRules, allTrueRegex, constIdB, CLASSIFICATION_RULES,
      securityDepositHighRule, securityDepositMediumRule, rentHikeHighRule,
      rentHikeMediumRule, lockInHighRule, lockInMediumRule, keywordToRegexSource,
      kwReplaceAux, Char.isWhitespace, sortDescBy, insertDescBy,
      deduplicateResults, dedupLoop, dedupKey, jsSubstring0, numberResults,
      mkClauseResult]
  refine ⟨ha, hb, ?_, ?_⟩
  · intro h
    have hmap := congrArg (List.map fun r : ClauseResult => r.id) h
    rw [ha, hb] at hmap
    exact absurd hmap (by decide)
  · intro h
    have hperm := h.map fun r : ClauseResult => r.id
    rw [ha, hb] at hperm
    exact absurd hperm (by decide)

/-- C8 amended. classify is deterministic in every field except the opaque
id: under any two id supplies, identical paragraph input yields outputs
that agree pointwise after erasing the id field. -/
theorem claim8_amended_deterministic :
    ∀ (rtest : RegexTest) (f g : Nat → String) (ps : List String),
      (classifyText rtest f ps).map eraseId = (classifyText rtest g ps).map eraseId := by
  intro rtest f g ps
  apply forall₂_map_eraseId
  rw [classifyText, classifyText, deduplicateResults, deduplicateResults]
  exact forall₂_dedupLoop (forall₂_sortDescBy (forall₂_numberResults f g _ 0)) []

end LexiYaar
